import Mathlib

/-!
Verification of the symbol-graph and staged-build engine of the odoo-ls
language server. The definitions below are a shallow embedding of
`src/server/src/core/symbols/symbol.rs`: reference-counted symbol cells are
modelled as ids in an arena (`Nat`), `Rc::ptr_eq` becomes id equality, weak
sets become lists of ids, and each `panic!` in the source becomes an
`Except`/`Option` failure or a `Bool` guard mirroring the exact conditions
tested by the source.
-/

namespace OdooLS

/-- Entity variants of the symbol tree, mirroring `enum Symbol` and `SymType`
in the source (`Symbol::typ`). -/
inductive SymType where
  | ROOT
  | NAMESPACE
  | PACKAGE
  | FILE
  | COMPILED
  | CLASS
  | FUNCTION
  | VARIABLE
deriving DecidableEq, Repr, Fintype

/-- Build stages, mirroring `BuildSteps` with the sentinel pre-stage SYNTAX.
The discriminants are SYNTAX = -1, ARCH = 0, ARCH_EVAL = 1, ODOO = 2,
VALIDATION = 3, used for ordering comparisons and array indexing. -/
inductive BuildSteps where
  | SYNTAX
  | ARCH
  | ARCH_EVAL
  | ODOO
  | VALIDATION
deriving DecidableEq, Repr, Fintype

/-- Integer discriminant of a build stage, as in the Rust enum declaration. -/
def BuildSteps.toInt : BuildSteps → Int
  | .SYNTAX => -1
  | .ARCH => 0
  | .ARCH_EVAL => 1
  | .ODOO => 2
  | .VALIDATION => 3

/-- Stage comparison `a < b` via the Rust derive on the discriminants. -/
def BuildSteps.blt (a b : BuildSteps) : Bool := a.toInt < b.toInt

/-- Stage comparison `a <= b` via the Rust derive on the discriminants. -/
def BuildSteps.ble (a b : BuildSteps) : Bool := a.toInt ≤ b.toInt

/-- Whether `Symbol::dependencies` returns (true) or aborts (false) for each
entity variant, read off the match arms of the source: Root, Compiled, Class,
Function and Variable abort; Namespace, Package and File return the array. -/
def dependencies_ok : SymType → Bool
  | .ROOT => false
  | .NAMESPACE => true
  | .PACKAGE => true
  | .FILE => true
  | .COMPILED => false
  | .CLASS => false
  | .FUNCTION => false
  | .VARIABLE => false

/-- Whether `Symbol::dependents` returns or aborts for each entity variant;
the source has the same arms as `Symbol::dependencies`. -/
def dependents_ok : SymType → Bool
  | .ROOT => false
  | .NAMESPACE => true
  | .PACKAGE => true
  | .FILE => true
  | .COMPILED => false
  | .CLASS => false
  | .FUNCTION => false
  | .VARIABLE => false

/-- Whether `Symbol::get_dependencies(step, level)` completes without abort:
the stage guards of the source followed by the per-variant match (Namespace,
Package and File return the set, every other variant aborts). -/
def get_dependencies_ok (t : SymType) (step level : BuildSteps) : Bool :=
  if step = .SYNTAX ∨ level = .SYNTAX then false
  else if BuildSteps.blt .ARCH level ∧ BuildSteps.blt step .ODOO then false
  else if BuildSteps.blt .ARCH level ∧ level = .VALIDATION then false
  else dependencies_ok t

/-- Whether `Symbol::get_dependents(level, step)` completes without abort:
the stage guards of the source followed by the per-variant match. -/
def get_dependents_ok (t : SymType) (level step : BuildSteps) : Bool :=
  if level = .SYNTAX ∨ step = .SYNTAX then false
  else if level = .VALIDATION then false
  else if BuildSteps.blt .ARCH level ∧ BuildSteps.blt step .ODOO then false
  else dependents_ok t

/-- Whether `Symbol::add_dependency(self, symbol, step, dep_level)` reaches
the two inserts without abort, mirroring the four guard blocks of the source
in order: the SYNTAX check, the `dep_level > ARCH` block (step below ODOO,
or dep_level = VALIDATION), and the two FILE-or-PACKAGE checks. -/
def add_dependency_ok (selfTyp otherTyp : SymType) (step dep_level : BuildSteps) : Bool :=
  if step = .SYNTAX ∨ dep_level = .SYNTAX then false
  else if BuildSteps.blt .ARCH dep_level ∧ BuildSteps.blt step .ODOO then false
  else if BuildSteps.blt .ARCH dep_level ∧ dep_level = .VALIDATION then false
  else if selfTyp ≠ .FILE ∧ selfTyp ≠ .PACKAGE then false
  else if otherTyp ≠ .FILE ∧ otherTyp ≠ .PACKAGE then false
  else true

/-- Condition on a stage pair under which claim C5 asserts that
`add_dependency` completes: SYNTAX not among the pair, dep_level at most
step, and dep_level not VALIDATION. -/
def c5_allowed (step dep_level : BuildSteps) : Bool :=
  step ≠ .SYNTAX ∧ dep_level ≠ .SYNTAX ∧ BuildSteps.ble dep_level step
    ∧ dep_level ≠ .VALIDATION

/-- C5 counterexample: the pair (ARCH_EVAL, ARCH_EVAL) satisfies the stage
condition of the claim (SYNTAX absent, dep_level at most step, dep_level not
VALIDATION), yet `add_dependency` between two file-like entities aborts on
it, because the source also requires `step >= ODOO` whenever
`dep_level > ARCH`. -/
theorem add_dependency_arch_eval_pair_aborts :
    c5_allowed .ARCH_EVAL .ARCH_EVAL = true ∧
    add_dependency_ok .FILE .FILE .ARCH_EVAL .ARCH_EVAL = false := by
  decide

/-- C5 (amended): between two file-like entities, `add_dependency` completes
exactly for the stage pairs with SYNTAX absent, dep_level at most step,
dep_level not VALIDATION, and additionally step at least ODOO whenever
dep_level is above ARCH; it aborts for every other pair. -/
theorem add_dependency_ok_characterization :
    ∀ (s o : SymType) (step dep_level : BuildSteps),
      (s = .FILE ∨ s = .PACKAGE) → (o = .FILE ∨ o = .PACKAGE) →
      (add_dependency_ok s o step dep_level = true ↔
        (step ≠ .SYNTAX ∧ dep_level ≠ .SYNTAX ∧
         BuildSteps.ble dep_level step = true ∧ dep_level ≠ .VALIDATION ∧
         (BuildSteps.blt .ARCH dep_level = true → BuildSteps.ble .ODOO step = true))) := by
  decide

/-- C5 witness: the theorem applied at a concrete allowed pair. -/
theorem add_dependency_ok_characterization_witness :
    add_dependency_ok .FILE .PACKAGE .ODOO .ARCH_EVAL = true ↔
      (BuildSteps.ODOO ≠ .SYNTAX ∧ BuildSteps.ARCH_EVAL ≠ .SYNTAX ∧
       BuildSteps.ble .ARCH_EVAL .ODOO = true ∧ BuildSteps.ARCH_EVAL ≠ .VALIDATION ∧
       (BuildSteps.blt .ARCH .ARCH_EVAL = true → BuildSteps.ble .ODOO .ODOO = true)) :=
  add_dependency_ok_characterization .FILE .PACKAGE .ODOO .ARCH_EVAL
    (Or.inl rfl) (Or.inr rfl)

/-- C6 counterexample: a Namespace entity is neither a File nor a Package,
yet reading its dependency and dependent edge sets does not abort: the
source match arms return `n.dependencies` and `n.dependents` for Namespace,
and `get_dependencies`/`get_dependents` likewise index into them. -/
theorem namespace_edge_reads_not_rejected :
    SymType.NAMESPACE ≠ .FILE ∧ SymType.NAMESPACE ≠ .PACKAGE ∧
    dependencies_ok .NAMESPACE = true ∧
    dependents_ok .NAMESPACE = true ∧
    get_dependencies_ok .NAMESPACE .ARCH .ARCH = true ∧
    get_dependents_ok .NAMESPACE .ARCH .ARCH = true := by
  decide

/-- C6 (amended): the edge-set read accessors abort exactly on Root,
Compiled, Class, Function and Variable — Namespace is accepted alongside
File and Package — while `add_dependency` rejects every entity that is not
a File or a Package, Namespace included. -/
theorem edge_access_characterization :
    ∀ t : SymType,
      (dependencies_ok t = (t = .NAMESPACE ∨ t = .PACKAGE ∨ t = .FILE : Bool)) ∧
      (dependents_ok t = (t = .NAMESPACE ∨ t = .PACKAGE ∨ t = .FILE : Bool)) ∧
      (get_dependencies_ok t .ARCH .ARCH = (t = .NAMESPACE ∨ t = .PACKAGE ∨ t = .FILE : Bool)) ∧
      (get_dependents_ok t .ARCH .ARCH = (t = .NAMESPACE ∨ t = .PACKAGE ∨ t = .FILE : Bool)) ∧
      (add_dependency_ok t .FILE .ARCH .ARCH = (t = .FILE ∨ t = .PACKAGE : Bool)) ∧
      (add_dependency_ok .FILE t .ARCH .ARCH = (t = .FILE ∨ t = .PACKAGE : Bool)) := by
  decide

/-! ### Dependency graph state (claim C3)

The per-entity arrays `dependencies[step][level]` and `dependents[level][step]`
of weak sets are flattened into two global edge lists: an entry
`(a, b, step, level)` of `deps` states that entity `a` holds `b` in
`a.dependencies[step][level]`, and an entry `(b, a, level, step)` of `depts`
states that `b` holds `a` in `b.dependents[level][step]`. Within the source,
the only writes to these sets are the two `insert` calls at the end of
`Symbol::add_dependency`; entries disappear only when a symbol is dropped and
its weak references expire, modelled by `expire_symbol`. -/

structure DepGraph where
  deps : List (Nat × Nat × BuildSteps × BuildSteps)
  depts : List (Nat × Nat × BuildSteps × BuildSteps)

/-- The two inserts of `Symbol::add_dependency`, executed together after the
guards pass; on a guard abort the operation dies before touching any set, so
the state is left unchanged. -/
def add_dependency (typ : Nat → SymType) (g : DepGraph) (a b : Nat)
    (step dep_level : BuildSteps) : DepGraph :=
  if add_dependency_ok (typ a) (typ b) step dep_level then
    { deps := (a, b, step, dep_level) :: g.deps,
      depts := (b, a, dep_level, step) :: g.depts }
  else g

/-- Expiry of every weak reference to a dropped symbol `x`: iteration over a
`PtrWeakHashSet` prunes entries whose target is gone, and the sets owned by
`x` itself disappear with it. -/
def expire_symbol (g : DepGraph) (x : Nat) : DepGraph :=
  { deps := g.deps.filter (fun e => !(e.1 == x || e.2.1 == x)),
    depts := g.depts.filter (fun e => !(e.1 == x || e.2.1 == x)) }

/-- Operations of the public surface that can touch the edge sets. -/
inductive DepOp where
  | add (a b : Nat) (step dep_level : BuildSteps)
  | drop (x : Nat)

def applyDepOp (typ : Nat → SymType) (g : DepGraph) : DepOp → DepGraph
  | .add a b step dep_level => add_dependency typ g a b step dep_level
  | .drop x => expire_symbol g x

def runDepOps (typ : Nat → SymType) : List DepOp → DepGraph → DepGraph
  | [], g => g
  | op :: rest, g => runDepOps typ rest (applyDepOp typ g op)

/-- The mutual-inverse property of claim C3 between the two edge stores. -/
def edgesInverse (g : DepGraph) : Prop :=
  ∀ a b s l, (a, b, s, l) ∈ g.deps ↔ (b, a, l, s) ∈ g.depts

theorem edgesInverse_apply (typ : Nat → SymType) (g : DepGraph) (op : DepOp)
    (h : edgesInverse g) : edgesInverse (applyDepOp typ g op) := by
  cases op with
  | add a0 b0 step0 level0 =>
    simp only [applyDepOp, add_dependency]
    split
    · intro a b s l
      simp only [List.mem_cons]
      constructor
      · rintro (heq | hm)
        · left
          injection heq with h1 h2
          injection h2 with h2 h3
          injection h3 with h3 h4
          subst h1; subst h2; subst h3; subst h4; rfl
        · right; exact (h a b s l).mp hm
      · rintro (heq | hm)
        · left
          injection heq with h1 h2
          injection h2 with h2 h3
          injection h3 with h3 h4
          subst h1; subst h2; subst h3; subst h4; rfl
        · right; exact (h a b s l).mpr hm
    · exact h
  | drop x =>
    intro a b s l
    simp only [applyDepOp, expire_symbol, List.mem_filter, h a b s l]
    constructor
    · rintro ⟨hm, hp⟩
      refine ⟨hm, ?_⟩
      simpa [Bool.or_comm] using hp
    · rintro ⟨hm, hp⟩
      refine ⟨hm, ?_⟩
      simpa [Bool.or_comm] using hp

/-- C3: starting from the empty edge state, after any sequence of public
operations (guarded `add_dependency` calls and symbol drops), the dependency
and dependent stores are mutually inverse: `a` holds `b` in
`dependencies[s][l]` exactly when `b` holds `a` in `dependents[l][s]`. -/
theorem add_dependency_edges_inverse (typ : Nat → SymType) (ops : List DepOp) :
    edgesInverse (runDepOps typ ops { deps := [], depts := [] }) := by
  have hstart : edgesInverse { deps := [], depts := [] } := by
    intro a b s l
    simp
  generalize hg : ({ deps := [], depts := [] } : DepGraph) = g at hstart ⊢
  clear hg
  induction ops generalizing g with
  | nil => exact hstart
  | cons op rest ih =>
    exact ih _ (edgesInverse_apply typ g op hstart)

/-! ### Invalidation engine (claim C1)

The symbol tree is an arena: `typ`, `parent`, the per-entity
`dependents[level][step]` sets (as lists of ids) and the iteration order of
`all_module_symbol` are functions of the id. `Rc::ptr_eq` is id equality.
`is_symbol_in_parents` walks the parent chain with fuel; in the source the
chain is finite (a tree), so any fuel at least the chain length is exact. -/

structure SymGraph where
  typ : Nat → SymType
  parent : Nat → Option Nat
  dependents : Nat → Nat → Nat → List Nat
  moduleChildren : Nat → List Nat

/-- Mirror of `Symbol::is_symbol_in_parents(symbol, to_test)`: true when
`to_test` equals `symbol` or appears on the strong parent chain above it,
compared by pointer identity (`Rc::ptr_eq`, here id equality). -/
def is_symbol_in_parents (g : SymGraph) : Nat → Nat → Nat → Bool
  | 0, _, _ => false
  | fuel + 1, symbol, to_test =>
    if symbol = to_test then true
    else
      match g.parent symbol with
      | none => false
      | some p => is_symbol_in_parents g fuel p to_test

/-- The four per-stage rebuild queues of the session
(`add_to_rebuild_arch`, `add_to_rebuild_arch_eval`, `add_to_init_odoo`,
`add_to_validations`). -/
structure Worklists where
  rebuild_arch : List Nat
  rebuild_arch_eval : List Nat
  init_odoo : List Nat
  validations : List Nat
deriving DecidableEq, Repr

/-- Dispatch of a dependent to the stage-`k` worklist, mirroring the
`if index == ... as usize` chains inside `Symbol::invalidate`. -/
def enqueue (wl : Worklists) (k : Nat) (d : Nat) : Worklists :=
  if k = 0 then { wl with rebuild_arch := wl.rebuild_arch ++ [d] }
  else if k = 1 then { wl with rebuild_arch_eval := wl.rebuild_arch_eval ++ [d] }
  else if k = 2 then { wl with init_odoo := wl.init_odoo ++ [d] }
  else if k = 3 then { wl with validations := wl.validations ++ [d] }
  else wl

/-- One `for (index, hashset) in dependents()[level].iter().enumerate()`
block of `Symbol::invalidate`: every dependent in `dependents[level][k]` for
the stage indexes `k` in `ks` is enqueued unless the invalidated entity `e`
is on its parent chain. -/
def process_dependents (g : SymGraph) (pf e level : Nat) (ks : List Nat)
    (wl : Worklists) : Worklists :=
  ks.foldl (fun wl k =>
    (g.dependents e level k).foldl (fun wl d =>
      if is_symbol_in_parents g pf d e then wl else enqueue wl k d) wl) wl

/-- The body of the invalidation worklist for one popped entity: the three
stage-conditional blocks of `Symbol::invalidate`, guarded by the entity
being file-like. -/
def invalidate_symbol (g : SymGraph) (pf e : Nat) (step : BuildSteps)
    (wl : Worklists) : Worklists :=
  if g.typ e = .FILE ∨ g.typ e = .PACKAGE then
    let wl := if step = .ARCH then process_dependents g pf e 0 [0, 1, 2, 3] wl else wl
    let wl := if step = .ARCH ∨ step = .ARCH_EVAL then
        process_dependents g pf e 1 [1, 2, 3] wl else wl
    if step = .ARCH ∨ step = .ARCH_EVAL ∨ step = .ODOO then
      process_dependents g pf e 2 [2, 3] wl
    else wl
  else wl

/-- Mirror of `Symbol::has_modules`. -/
def has_modules : SymType → Bool
  | .ROOT | .NAMESPACE | .PACKAGE => true
  | _ => false

/-- The FIFO loop of `Symbol::invalidate` over `vec_to_invalidate`, with fuel
for the module-children recursion (the tree is finite in the source). -/
def invalidate_loop (g : SymGraph) (pf : Nat) (step : BuildSteps) :
    Nat → List Nat → Worklists → Worklists
  | 0, _, wl => wl
  | _ + 1, [], wl => wl
  | fuel + 1, e :: rest, wl =>
    let wl := invalidate_symbol g pf e step wl
    let next := if has_modules (g.typ e) then g.moduleChildren e else []
    invalidate_loop g pf step fuel (rest ++ next) wl

/-- Mirror of `Symbol::invalidate(symbol, step)` starting from empty
worklists. -/
def invalidate (g : SymGraph) (pf bf e : Nat) (step : BuildSteps) : Worklists :=
  invalidate_loop g pf step bf [e] ⟨[], [], [], []⟩

/-- Appending a whole list to the stage-`k` worklist. -/
def enqueue_list (wl : Worklists) (k : Nat) (l : List Nat) : Worklists :=
  l.foldl (fun wl d => enqueue wl k d) wl

theorem fold_enqueue_eq (g : SymGraph) (pf e k : Nat) (l : List Nat) (wl : Worklists) :
    l.foldl (fun wl d =>
        if is_symbol_in_parents g pf d e then wl else enqueue wl k d) wl
      = enqueue_list wl k (l.filter (fun d => !is_symbol_in_parents g pf d e)) := by
  induction l generalizing wl with
  | nil => rfl
  | cons d rest ih =>
    simp only [List.foldl_cons, List.filter_cons]
    by_cases hd : is_symbol_in_parents g pf d e = true
    · simp [hd, ih]
    · simp only [Bool.not_eq_true] at hd
      simp [hd, ih, enqueue_list]

theorem enqueue_list_field0 (l : List Nat) (wl : Worklists) :
    enqueue_list wl 0 l = { wl with rebuild_arch := wl.rebuild_arch ++ l } := by
  induction l generalizing wl with
  | nil => simp [enqueue_list]
  | cons d rest ih => simp [enqueue_list, enqueue] at ih ⊢; simp [ih]

theorem enqueue_list_field1 (l : List Nat) (wl : Worklists) :
    enqueue_list wl 1 l = { wl with rebuild_arch_eval := wl.rebuild_arch_eval ++ l } := by
  induction l generalizing wl with
  | nil => simp [enqueue_list]
  | cons d rest ih => simp [enqueue_list, enqueue] at ih ⊢; simp [ih]

theorem enqueue_list_field2 (l : List Nat) (wl : Worklists) :
    enqueue_list wl 2 l = { wl with init_odoo := wl.init_odoo ++ l } := by
  induction l generalizing wl with
  | nil => simp [enqueue_list]
  | cons d rest ih => simp [enqueue_list, enqueue] at ih ⊢; simp [ih]

theorem enqueue_list_field3 (l : List Nat) (wl : Worklists) :
    enqueue_list wl 3 l = { wl with validations := wl.validations ++ l } := by
  induction l generalizing wl with
  | nil => simp [enqueue_list]
  | cons d rest ih => simp [enqueue_list, enqueue] at ih ⊢; simp [ih]

/-- Concrete graph for claim C1: entity 0 is a Package, entity 1 is a File
whose parent is 0 (so 0 is an ancestor of 1), and 0 is recorded in
`dependents[ARCH][ARCH]` of 1 (the package depends on its child file). -/
def c1Graph : SymGraph :=
  { typ := fun i => if i = 0 then .PACKAGE else .FILE,
    parent := fun i => if i = 1 then some 0 else none,
    dependents := fun e level k =>
      if e = 1 ∧ level = 0 ∧ k = 0 then [0] else [],
    moduleChildren := fun _ => [] }

/-- C1 counterexample: invalidating file 1 at stage ARCH enqueues its
dependent 0 on the ARCH worklist even though 0 is a strict ancestor of the
invalidated entity 1 — the source skips a dependent only when the
invalidated entity lies on the parent chain of the dependent, not the other
way around as the claim states. -/
theorem invalidate_enqueues_ancestor_dependent :
    is_symbol_in_parents c1Graph 10 1 0 = true ∧ (0 : Nat) ≠ 1 ∧
    (0 : Nat) ∈ (c1Graph.dependents 1 0 0) ∧
    invalidate c1Graph 10 10 1 .ARCH = ⟨[0], [], [], []⟩ := by
  decide

/-- Per-dependent-set filter of `Symbol::invalidate`: the dependents of the
currently processed entity `e` stored in `dependents[lvl][k]`, keeping those
whose parent chain does not contain `e` — the source tests
`is_symbol_in_parents(sym, ref_to_inv)` against the popped entity
`ref_to_inv`, by pointer identity. -/
def dependents_filtered (g : SymGraph) (pf e lvl k : Nat) : List Nat :=
  (g.dependents e lvl k).filter (fun d => !is_symbol_in_parents g pf d e)

/-- What one popped entity contributes to the stage-`k` worklist when
`step = ARCH`: nothing unless the entity is file-like; otherwise the
ancestor-filtered dependents of the cells scanned by the three blocks of
the source (levels ARCH, ARCH_EVAL and ODOO in that order, each block
restricted to its stage indexes). -/
def arch_enqueued (g : SymGraph) (pf e k : Nat) : List Nat :=
  if g.typ e = .FILE ∨ g.typ e = .PACKAGE then
    match k with
    | 0 => dependents_filtered g pf e 0 0
    | 1 => dependents_filtered g pf e 0 1 ++ dependents_filtered g pf e 1 1
    | 2 => dependents_filtered g pf e 0 2 ++ dependents_filtered g pf e 1 2
        ++ dependents_filtered g pf e 2 2
    | _ => dependents_filtered g pf e 0 3 ++ dependents_filtered g pf e 1 3
        ++ dependents_filtered g pf e 2 3
  else []

/-- The FIFO order in which `vec_to_invalidate` pops entities: each popped
entity is followed by its module children when it has any, exactly as
`invalidate_loop` pushes them at the back. -/
def bfs_order (g : SymGraph) : Nat → List Nat → List Nat
  | 0, _ => []
  | _ + 1, [] => []
  | fuel + 1, e :: rest =>
    e :: bfs_order g fuel
      (rest ++ (if has_modules (g.typ e) then g.moduleChildren e else []))

theorem invalidate_symbol_arch_eq (g : SymGraph) (pf e : Nat) (wl : Worklists) :
    invalidate_symbol g pf e .ARCH wl =
      { rebuild_arch := wl.rebuild_arch ++ arch_enqueued g pf e 0,
        rebuild_arch_eval := wl.rebuild_arch_eval ++ arch_enqueued g pf e 1,
        init_odoo := wl.init_odoo ++ arch_enqueued g pf e 2,
        validations := wl.validations ++ arch_enqueued g pf e 3 } := by
  by_cases hf : g.typ e = .FILE ∨ g.typ e = .PACKAGE
  · unfold invalidate_symbol
    rw [if_pos hf]
    simp only [if_pos rfl, if_pos (Or.inl rfl)]
    simp only [process_dependents, List.foldl_cons, List.foldl_nil,
      fold_enqueue_eq, enqueue_list_field0, enqueue_list_field1,
      enqueue_list_field2, enqueue_list_field3]
    simp [arch_enqueued, dependents_filtered, hf, List.append_assoc]
  · unfold invalidate_symbol
    rw [if_neg hf]
    simp [arch_enqueued, hf]

theorem invalidate_loop_arch_eq (g : SymGraph) (pf : Nat) :
    ∀ (fuel : Nat) (queue : List Nat) (wl : Worklists),
    invalidate_loop g pf .ARCH fuel queue wl =
      { rebuild_arch := wl.rebuild_arch
          ++ ((bfs_order g fuel queue).map (fun x => arch_enqueued g pf x 0)).flatten,
        rebuild_arch_eval := wl.rebuild_arch_eval
          ++ ((bfs_order g fuel queue).map (fun x => arch_enqueued g pf x 1)).flatten,
        init_odoo := wl.init_odoo
          ++ ((bfs_order g fuel queue).map (fun x => arch_enqueued g pf x 2)).flatten,
        validations := wl.validations
          ++ ((bfs_order g fuel queue).map (fun x => arch_enqueued g pf x 3)).flatten } := by
  intro fuel
  induction fuel with
  | zero =>
    intro queue wl
    show (wl : Worklists) = _
    simp [bfs_order]
  | succ n ih =>
    intro queue wl
    cases queue with
    | nil =>
      show (wl : Worklists) = _
      simp [bfs_order]
    | cons e rest =>
      show invalidate_loop g pf .ARCH n
          (rest ++ (if has_modules (g.typ e) then g.moduleChildren e else []))
          (invalidate_symbol g pf e .ARCH wl) = _
      rw [ih, invalidate_symbol_arch_eq]
      simp [bfs_order, List.append_assoc]

/-- C1 (amended): during `invalidate(entity, ARCH)`, the entities processed
are the entity followed, in FIFO order, by its module children recursively
(`bfs_order`); every file-like processed entity E contributes to the
stage-`k` worklist exactly the dependents stored in its
`dependents[ARCH][k]` cell (and, per the other two blocks the source runs
when the step is ARCH, in `dependents[ARCH_EVAL][k]` and
`dependents[ODOO][k]` for the stage indexes those blocks dispatch), except
the dependents D such that the currently processed entity E equals D or is
an ancestor of D — the check walks the parent chain of D looking for E and
compares strong references by pointer identity, never by name, and is made
against the processed entity, not the originally invalidated one. -/
theorem invalidate_arch_characterization (g : SymGraph) (pf bf e : Nat) :
    invalidate g pf bf e .ARCH =
      { rebuild_arch :=
          ((bfs_order g bf [e]).map (fun x => arch_enqueued g pf x 0)).flatten,
        rebuild_arch_eval :=
          ((bfs_order g bf [e]).map (fun x => arch_enqueued g pf x 1)).flatten,
        init_odoo :=
          ((bfs_order g bf [e]).map (fun x => arch_enqueued g pf x 2)).flatten,
        validations :=
          ((bfs_order g bf [e]).map (fun x => arch_enqueued g pf x 3)).flatten } := by
  unfold invalidate
  rw [invalidate_loop_arch_eq]
  simp

/-! ### Evaluation engine (claims C2 and C10)

Variables carry evaluations; resolving an evaluation
(`eval.symbol.get_symbol`) yields a weak target and an is-instance flag.
The model keeps the resolved pairs directly and a `live` predicate for weak
expiry. The branch of `follow_ref` that synchronously runs the ARCH_EVAL
builder on an unevaluated external file mutates builder state outside this
fragment and leaves the local `results`/`index` state untouched, so it has
no counterpart here; control continues to `next_refs` in either case, as in
the source. -/

structure EvalGraph where
  typ : Nat → SymType
  evaluations : Nat → List (Nat × Bool)
  live : Nat → Bool
  is_import_variable : Nat → Bool
  first_eval_has_value : Nat → Bool

/-- Mirror of `Symbol::next_refs`: a Variable yields the resolved pair of
every evaluation whose weak target is not expired; every other entity
yields the empty deque. -/
def next_refs (g : EvalGraph) (symbol : Nat) : List (Nat × Bool) :=
  if g.typ symbol = .VARIABLE then
    (g.evaluations symbol).filter (fun p => g.live p.1)
  else []

/-- The `while index < results.len()` loop of `Symbol::follow_ref`, with
fuel: one iteration examines `results[index]`; an expired or non-Variable
entry, or a Variable on which a stop flag applies, advances `index`; an
expandable Variable with a non-empty `next_refs` pops the FRONT of the
deque, keeps `index`, and appends the expansion at the back. `none` means
the fuel ran out before the loop exited. -/
def follow_ref_loop (g : EvalGraph) (stop_on_type stop_on_value : Bool) :
    Nat → List (Nat × Bool) → Nat → Option (List (Nat × Bool))
  | 0, _, _ => none
  | fuel + 1, results, index =>
    if h : index < results.length then
      let sb := results.get ⟨index, h⟩
      if !g.live sb.1 then
        follow_ref_loop g stop_on_type stop_on_value fuel results (index + 1)
      else if g.typ sb.1 = .VARIABLE then
        if stop_on_type && !sb.2 && !g.is_import_variable sb.1 then
          follow_ref_loop g stop_on_type stop_on_value fuel results (index + 1)
        else if stop_on_value && (g.evaluations sb.1).length == 1
            && g.first_eval_has_value sb.1 then
          follow_ref_loop g stop_on_type stop_on_value fuel results (index + 1)
        else
          let next := next_refs g sb.1
          if next.length ≥ 1 then
            follow_ref_loop g stop_on_type stop_on_value fuel
              (results.tail ++ next) index
          else
            follow_ref_loop g stop_on_type stop_on_value fuel results (index + 1)
      else
        follow_ref_loop g stop_on_type stop_on_value fuel results (index + 1)
    else some results

/-- Mirror of `Symbol::follow_ref`: seed with `next_refs`, return the seed
symbol itself (instance exactly for a Variable) when the seed is empty, and
otherwise run the expansion loop. -/
def follow_ref (g : EvalGraph) (fuel symbol : Nat)
    (stop_on_type stop_on_value : Bool) : Option (List (Nat × Bool)) :=
  let results := next_refs g symbol
  if results.isEmpty then
    some [(symbol, decide (g.typ symbol = .VARIABLE))]
  else follow_ref_loop g stop_on_type stop_on_value fuel results 0

/-- C10: whenever `next_refs` of the seed symbol is empty — for every
non-Variable symbol, and for every Variable all of whose evaluation targets
have expired — `follow_ref` returns exactly the singleton of the symbol
itself, flagged as an instance exactly when the symbol is a Variable. -/
theorem follow_ref_of_no_refs (g : EvalGraph) (fuel symbol : Nat)
    (st sv : Bool)
    (h : g.typ symbol ≠ .VARIABLE ∨ ∀ p ∈ g.evaluations symbol, g.live p.1 = false) :
    follow_ref g fuel symbol st sv
      = some [(symbol, decide (g.typ symbol = .VARIABLE))] := by
  have hempty : next_refs g symbol = [] := by
    cases h with
    | inl h => simp [next_refs, h]
    | inr h =>
      unfold next_refs
      split
      · exact List.filter_eq_nil_iff.mpr (by simpa using h)
      · rfl
  simp [follow_ref, hempty]

/-- Concrete evaluation graph for C10: symbol 5 is a Class, symbol 6 is a
Variable whose single evaluation targets the expired symbol 7. -/
def c10Graph : EvalGraph :=
  { typ := fun i => if i = 6 then .VARIABLE else .CLASS,
    evaluations := fun i => if i = 6 then [(7, true)] else [],
    live := fun i => !(i == 7),
    is_import_variable := fun _ => false,
    first_eval_has_value := fun _ => false }

/-- C10 witness: the theorem applied to the Class 5 and to the Variable 6
with only expired targets. -/
theorem follow_ref_of_no_refs_witness :
    follow_ref c10Graph 3 5 false false = some [(5, false)] ∧
    follow_ref c10Graph 3 6 true false = some [(6, true)] := by
  constructor
  · have h := follow_ref_of_no_refs c10Graph 3 5 false false (Or.inl (by decide))
    simpa using h
  · have h := follow_ref_of_no_refs c10Graph 3 6 true false (Or.inr (by decide))
    simpa using h

/-- Concrete evaluation graph for C2: symbol 0 is a Variable whose single
evaluation targets symbol 0 itself as an instance, every reference is live,
and no literal value is attached — the smallest reference cycle. -/
def c2Graph : EvalGraph :=
  { typ := fun _ => .VARIABLE,
    evaluations := fun i => if i = 0 then [(0, true)] else [],
    live := fun _ => true,
    is_import_variable := fun _ => false,
    first_eval_has_value := fun _ => false }

theorem follow_ref_cycle_loop (st sv : Bool) (n : Nat) :
    follow_ref_loop c2Graph st sv n [(0, true)] 0 = none := by
  induction n with
  | zero => rfl
  | succ n ih =>
    rw [follow_ref_loop]
    simpa [c2Graph, next_refs] using ih

/-- C2: `follow_ref` is not cycle-safe. On the one-symbol reference cycle
`c2Graph`, for every flag combination and every fuel bound the expansion
loop re-expands the same weak reference forever — the loop state
`([(0, true)], 0)` reproduces itself on each iteration — so the call never
terminates, contradicting the claim that each weak reference produced by
`next_refs` is expanded at most once per call. -/
theorem follow_ref_cycle_diverges (st sv : Bool) (fuel : Nat) :
    follow_ref c2Graph fuel 0 st sv = none := by
  have hseed : next_refs c2Graph 0 = [(0, true)] := by decide
  simp [follow_ref, hseed, follow_ref_cycle_loop]

/-! ### Member lookup on classes (claim C4)

Inputs of `Symbol::get_member_symbol` that live outside the embedded file
enter as oracles: `module_symbol` is `get_module_symbol` (always `none` for
a Class, per the match arms of the source), `content_symbols` is
`get_content_symbol(name, u32::MAX)`, `class_model` is the declared
`_model` name of a Class, `model_registry` is the lookup
`session.sync_odoo.models.get(name)` followed by `Model::get_symbols`
(participating classes ordered by module dependency; `model.rs` is not part
of the embedded file), and `bases` is the base-class list in declaration
order. `is_equal` is pointer identity, here id equality. Recursion is fuel
bounded; the source recursion is finite on the acyclic class graphs it runs
on. -/

structure MemberCfg where
  typ : Nat → SymType
  module_symbol : Nat → String → Option Nat
  content_symbols : Nat → String → List Nat
  class_model : Nat → Option String
  model_registry : String → Option (List Nat)
  bases : Nat → List Nat

/-- First non-empty result among the recursive base lookups, mirroring the
`for base in bases { if s.len() != 0 { return s } }` loop when `all` is
false. -/
def first_nonempty : List (List Nat) → Option (List Nat)
  | [] => none
  | s :: rest => if s ≠ [] then some s else first_nonempty rest

/-- Mirror of `Symbol::get_member_symbol(self, name, from_module,
prevent_comodel, all)`. A pair `(some r, _)` threads an early `return r` of
the source; `(none, acc)` threads the accumulated `result`. -/
def get_member_symbol (cfg : MemberCfg) :
    Nat → Nat → String → Option Nat → Bool → Bool → List Nat
  | 0, _, _, _, _, _ => []
  | fuel + 1, selfId, name, from_module, prevent_comodel, all =>
    let afterMod : Option (List Nat) × List Nat :=
      match cfg.module_symbol selfId name with
      | some m => if all then (none, [m]) else (some [m], [])
      | none => (none, [])
    match afterMod with
    | (some r, _) => r
    | (none, res0) =>
      let content := cfg.content_symbols selfId name
      let afterContent : Option (List Nat) × List Nat :=
        if content.length ≥ 1 then
          if all then (none, res0 ++ content) else (some content, res0)
        else (none, res0)
      match afterContent with
      | (some r, _) => r
      | (none, res1) =>
        let afterComodel : Option (List Nat) × List Nat :=
          if cfg.typ selfId = .CLASS ∧ prevent_comodel = false then
            match cfg.class_model selfId with
            | none => (none, res1)
            | some model_name =>
              match cfg.model_registry model_name with
              | none => (none, res1)
              | some loc_symbols =>
                if all then
                  (none, (loc_symbols.filter (fun c => c ≠ selfId)).foldl
                    (fun acc c =>
                      acc ++ get_member_symbol cfg fuel c name none true all) res1)
                else
                  match loc_symbols.dropWhile (fun c => c == selfId) with
                  | [] => (none, res1)
                  | c :: _ =>
                    (some (get_member_symbol cfg fuel c name none true all), res1)
          else (none, res1)
        match afterComodel with
        | (some r, _) => r
        | (none, res2) =>
          if all = false ∧ res2 ≠ [] then res2
          else if cfg.typ selfId = .CLASS then
            if all then
              res2 ++ ((cfg.bases selfId).map (fun b =>
                get_member_symbol cfg fuel b name from_module prevent_comodel all)).flatten
            else
              match first_nonempty ((cfg.bases selfId).map (fun b =>
                  get_member_symbol cfg fuel b name from_module prevent_comodel all)) with
              | some r => r
              | none => res2
          else res2

/-- Concrete configuration for C4: class 1 declares model "t"; the registry
lists classes 1 and 2 for "t"; class 2 offers no member named "x"; class 3,
the only base of class 1, has a content symbol 7 named "x". -/
def c4Cfg : MemberCfg :=
  { typ := fun _ => .CLASS,
    module_symbol := fun _ _ => none,
    content_symbols := fun i n => if i = 3 ∧ n = "x" then [7] else [],
    class_model := fun i => if i = 1 then some "t" else none,
    model_registry := fun n => if n = "t" then some [1, 2] else none,
    bases := fun i => if i = 1 then [3] else [] }

/-- C4 counterexample: looking up "x" on class 1 with `all = false` returns
the empty list, although base class 3 provides the member (a direct lookup
on 3 yields symbol 7): the comodel branch of the source returns the result
of the first other registered class unconditionally, even when that result
is empty, so the base classes are never consulted. -/
theorem get_member_symbol_base_hit_skipped :
    get_member_symbol c4Cfg 5 1 "x" none false false = [] ∧
    get_member_symbol c4Cfg 5 3 "x" none false false = [7] := by
  decide

/-- C4 (amended): for a Class with `all = false`, when the module-symbol and
content-symbol searches are empty and the comodel branch is entered (a model
is declared, the registry knows it, and at least one registered class other
than self exists), the call returns exactly the recursive lookup on the
first such class (with `prevent_comodel = true`) — even when that lookup is
empty — and the base classes are not consulted; bases are reached only when
the comodel branch is skipped or finds no other class. -/
theorem get_member_symbol_comodel_shadows_bases (cfg : MemberCfg)
    (fuel selfId : Nat) (name model_name : String) (from_module : Option Nat)
    (c : Nat) (rest syms : List Nat)
    (h1 : cfg.typ selfId = .CLASS)
    (h2 : cfg.module_symbol selfId name = none)
    (h3 : cfg.content_symbols selfId name = [])
    (h4 : cfg.class_model selfId = some model_name)
    (h5 : cfg.model_registry model_name = some syms)
    (h6 : syms.dropWhile (fun x => x == selfId) = c :: rest) :
    get_member_symbol cfg (fuel + 1) selfId name from_module false false
      = get_member_symbol cfg fuel c name none true false := by
  simp [get_member_symbol, h1, h2, h3, h4, h5, h6]

/-- C4 amended witness: the theorem applied to `c4Cfg`, where the first
other registered class of model "t" is class 2. -/
theorem get_member_symbol_comodel_shadows_bases_witness :
    get_member_symbol c4Cfg 5 1 "x" none false false
      = get_member_symbol c4Cfg 4 2 "x" none true false :=
  get_member_symbol_comodel_shadows_bases c4Cfg 4 1 "x" "t" none 2 [] [1, 2]
    (by decide) (by decide) (by decide) (by decide) (by decide) (by decide)

/-! ### Container children and removal (claim C7)

A container owns `symbols : HashMap<String, HashMap<u32, Vec<Rc>>>`
(name, then section id, then entities), modelled as an association list.
The name and section of a content entity are immutable attributes
(`ContentInfo`); the mutable state is the children map and the parent
pointers. `Symbol::remove_symbol` on a file-content child executes
`symbols.remove(symbol.name())` — deleting the entire entry for that name,
all sections included — and then clears the parent pointer of the removed
symbol only. -/

structure ContentInfo where
  nameOf : Nat → String
  sectionOf : Nat → Nat

structure ContainerState where
  symbols : List (String × List (Nat × List Nat))
  parent : Nat → Option Nat

/-- Entities stored under a name and section id in a children map. -/
def lookup_section (m : List (String × List (Nat × List Nat)))
    (name : String) (sec : Nat) : List Nat :=
  match m.find? (fun e => e.1 == name) with
  | none => []
  | some (_, secs) =>
    match secs.find? (fun e => e.1 == sec) with
    | none => []
    | some (_, l) => l

/-- Mirror of the file-content branch of `Symbol::remove_symbol`:
`symbols.remove(name)` drops the whole name entry, then
`symbol.set_parent(None)`. -/
def remove_symbol (info : ContentInfo) (st : ContainerState) (symbol : Nat) :
    ContainerState :=
  { symbols := st.symbols.filter (fun e => !(e.1 == info.nameOf symbol)),
    parent := fun x => if x = symbol then none else st.parent x }

/-- Attributes for the C7 scenario: entities 1 and 2 both carry the name
"x", in sections 0 and 1 of the same container. -/
def c7Info : ContentInfo :=
  { nameOf := fun _ => "x",
    sectionOf := fun i => if i = 2 then 1 else 0 }

/-- Children state for C7: container 100 holds 1 under `("x", 0)` and 2
under `("x", 1)`; both entities point back to 100. -/
def c7State : ContainerState :=
  { symbols := [("x", [(0, [1]), (1, [2])])],
    parent := fun x => if x = 1 ∨ x = 2 then some 100 else none }

/-- C7 counterexample: before the removal both same-named siblings satisfy
the child round trip; after `remove_symbol` detaches entity 2 (name "x",
section 1), the sibling entity 1 (name "x", section 0) still has parent 100
but is no longer present in the children map — `symbols.remove(name)`
deleted the whole name entry — so the round trip fails for an entity that
remained attached. -/
theorem remove_symbol_breaks_same_name_sibling :
    (1 : Nat) ∈ lookup_section c7State.symbols "x" 0 ∧
    (2 : Nat) ∈ lookup_section c7State.symbols "x" 1 ∧
    c7Info.nameOf 1 = c7Info.nameOf 2 ∧
    c7Info.sectionOf 1 ≠ c7Info.sectionOf 2 ∧
    (remove_symbol c7Info c7State 2).parent 1 = some 100 ∧
    lookup_section (remove_symbol c7Info c7State 2).symbols
      (c7Info.nameOf 1) (c7Info.sectionOf 1) = [] := by
  decide

theorem find_filter_ne_key {n n2 : String} (h : n ≠ n2)
    (l : List (String × List (Nat × List Nat))) :
    (l.filter (fun e => !(e.1 == n2))).find? (fun e => e.1 == n)
      = l.find? (fun e => e.1 == n) := by
  induction l with
  | nil => rfl
  | cons a rest ih =>
    by_cases h2 : a.1 = n2
    · have hb2 : (a.1 == n2) = true := by simp [h2]
      have hn : (a.1 == n) = false := by
        simp only [beq_eq_false_iff_ne, ne_eq]
        intro hc
        exact h (hc ▸ h2)
      simp [List.filter_cons, hb2, List.find?_cons, hn, ih]
    · have hb2 : (a.1 == n2) = false := by simpa using h2
      by_cases h1 : a.1 = n
      · have hb1 : (a.1 == n) = true := by simp [h1]
        simp [List.filter_cons, hb2, List.find?_cons, hb1]
      · have hb1 : (a.1 == n) = false := by simpa using h1
        simp [List.filter_cons, hb2, List.find?_cons, hb1, ih]

/-- C7 (amended): `remove_symbol(entity2)` preserves the child round trip
exactly for the content entities whose name differs from that of `entity2`
(their map entry and parent pointer are untouched, and `entity2` itself is
detached); an attached sibling sharing the removed name — in any section —
is dropped from the children map as well while keeping its parent pointer,
so the round trip is not preserved for it. -/
theorem remove_symbol_preserves_other_names (info : ContentInfo)
    (st : ContainerState) (containerId e e2 : Nat)
    (hname : info.nameOf e ≠ info.nameOf e2)
    (hparent : st.parent e = some containerId)
    (hmem : e ∈ lookup_section st.symbols (info.nameOf e) (info.sectionOf e)) :
    (remove_symbol info st e2).parent e = some containerId ∧
    e ∈ lookup_section (remove_symbol info st e2).symbols
      (info.nameOf e) (info.sectionOf e) ∧
    (remove_symbol info st e2).parent e2 = none := by
  have hne : e ≠ e2 := fun hc => hname (hc ▸ rfl)
  refine ⟨?_, ?_, ?_⟩
  · simp [remove_symbol, hne, hparent]
  · unfold lookup_section at hmem ⊢
    simp only [remove_symbol]
    rw [find_filter_ne_key hname]
    exact hmem
  · simp [remove_symbol]

/-- Attributes for the C7 witness: entity 3 is named "y" in section 0. -/
def c7yInfo : ContentInfo :=
  { nameOf := fun i => if i = 3 then "y" else "x",
    sectionOf := fun i => if i = 2 then 1 else 0 }

/-- Children state for the C7 witness: container 100 holds "x" entities 1, 2
and the "y" entity 3. -/
def c7yState : ContainerState :=
  { symbols := [("x", [(0, [1]), (1, [2])]), ("y", [(0, [3])])],
    parent := fun x => if x = 1 ∨ x = 2 ∨ x = 3 then some 100 else none }

/-- C7 amended witness: the theorem applied to a state where container 100
also holds entity 3 under the name "y"; removing entity 2 keeps the round
trip for 3. -/
theorem remove_symbol_preserves_other_names_witness :
    (remove_symbol c7yInfo c7yState 2).parent 3 = some 100 ∧
    (3 : Nat) ∈ lookup_section (remove_symbol c7yInfo c7yState 2).symbols
      (c7yInfo.nameOf 3) (c7yInfo.sectionOf 3) ∧
    (remove_symbol c7yInfo c7yState 2).parent 2 = none :=
  remove_symbol_preserves_other_names c7yInfo c7yState 100 3 2
    (by decide) (by decide) (by decide)

/-! ### Discovery policy `create_from_path` (claims C8 and C9)

Filesystem facts (existence of `__init__.py`, `__init__.pyi`,
`__manifest__.py`), the success of manifest parsing inside
`PackageSymbol::new_module_package` (outside the embedded file), and the
component-derived `name` enter as fields of `PathInfo`; the suffix tests on
the sanitized path string (`path_str.ends_with(".py")` and friends) are the
computable `str_ends_with`. Entity identity (`Rc::new` allocation) is an
arena counter: every `add_new_*` constructor allocates the next id. Module
registration in the session registry and `load_module_info` touch state
outside this fragment and do not affect the returned entity. -/

def str_ends_with (s suffix : String) : Bool :=
  List.isSuffixOf suffix.data s.data

structure PathInfo where
  name : String
  path_str : String
  has_init_py : Bool
  has_init_pyi : Bool
  has_manifest : Bool
  module_ok : Bool

inductive CreatedKind where
  | File
  | ModulePkg
  | PythonPkg (i_ext : Bool)
  | NamespaceDir
deriving DecidableEq, Repr

structure CreateState where
  next_id : Nat
  created : List (Nat × CreatedKind)
deriving DecidableEq, Repr

/-- Fresh allocation of a symbol cell (`Rc::new(RefCell::new(...))` followed
by attachment to the parent), returning the new identity. -/
def alloc (st : CreateState) (k : CreatedKind) : Nat × CreateState :=
  (st.next_id,
    { next_id := st.next_id + 1, created := st.created ++ [(st.next_id, k)] })

/-- Mirror of `Symbol::create_from_path(session, path, parent,
require_module)`; `parent_tree` is `parent.get_tree()` and the returned id
is the identity of the created entity. The PythonPackage branches set the
interface-extension flag exactly when `path/__init__.py` does not exist. -/
def create_from_path (p : PathInfo) (parent_tree : List String × List String)
    (require_module : Bool) (st : CreateState) :
    Option (Nat × CreatedKind) × CreateState :=
  if str_ends_with p.path_str ".py" || str_ends_with p.path_str ".pyi" then
    let (i, st) := alloc st .File
    (some (i, .File), st)
  else if p.has_init_py || p.has_init_pyi then
    if parent_tree = (["odoo", "addons"], []) ∧ p.has_manifest = true then
      if p.module_ok then
        let (i, st) := alloc st .ModulePkg
        (some (i, .ModulePkg), st)
      else if require_module then (none, st)
      else
        let (i, st) := alloc st (.PythonPkg (!p.has_init_py))
        (some (i, .PythonPkg (!p.has_init_py)), st)
    else if require_module then (none, st)
    else if parent_tree = (["odoo"], []) ∧ str_ends_with p.path_str "addons" then
      let (i, st) := alloc st .NamespaceDir
      (some (i, .NamespaceDir), st)
    else
      let (i, st) := alloc st (.PythonPkg (!p.has_init_py))
      (some (i, .PythonPkg (!p.has_init_py)), st)
  else if !require_module then
    let (i, st) := alloc st .NamespaceDir
    (some (i, .NamespaceDir), st)
  else (none, st)

/-- Directory for the C8 and C9 scenarios: a plain package directory with an
init file, no manifest, under a parent whose qualified path is not the
addons root. -/
def c8Path : PathInfo :=
  { name := "mypkg", path_str := "/w/mypkg",
    has_init_py := true, has_init_pyi := false,
    has_manifest := false, module_ok := false }

/-- C8 counterexample: on a directory with an init file, outside both
special odoo cases, `create_from_path` with `require_module = true` returns
nothing and creates nothing — the `else if require_module { return None }`
arm sits inside the init branch — where the claim asserts a PythonPackage
for every value of `require_module` (with false it does create one). -/
theorem create_from_path_require_module_no_package :
    (create_from_path c8Path (["proj"], []) true ⟨0, []⟩).1 = none ∧
    (create_from_path c8Path (["proj"], []) true ⟨0, []⟩).2.created = [] ∧
    (create_from_path c8Path (["proj"], []) false ⟨0, []⟩).1
      = some (0, .PythonPkg false) := by
  decide

/-- C8 (amended): on a directory path (no source-file suffix) containing an
init file, when the parent tree with a manifest does not match the addons
root (case 2a) and the forced addons namespace (case 2b) does not apply,
`create_from_path` creates and returns a fresh PythonPackage when
`require_module` is false, and returns nothing when `require_module` is
true. -/
theorem create_from_path_python_package_characterization (p : PathInfo)
    (tree : List String × List String) (rq : Bool) (st : CreateState)
    (hpy : str_ends_with p.path_str ".py" = false)
    (hpyi : str_ends_with p.path_str ".pyi" = false)
    (hinit : (p.has_init_py || p.has_init_pyi) = true)
    (h2a : ¬(tree = (["odoo", "addons"], []) ∧ p.has_manifest = true))
    (h2b : ¬(tree = (["odoo"], []) ∧ str_ends_with p.path_str "addons" = true)) :
    (create_from_path p tree rq st).1 =
      if rq then none else some (st.next_id, .PythonPkg (!p.has_init_py)) := by
  cases rq <;>
    simp [create_from_path, hpy, hpyi, hinit, h2a, h2b, alloc]

/-- C8 amended witness: the characterization applied to `c8Path` for both
values of `require_module`. -/
theorem create_from_path_python_package_characterization_witness :
    ((create_from_path c8Path (["proj"], []) true ⟨0, []⟩).1
        = if true then none else some (0, .PythonPkg false)) ∧
    ((create_from_path c8Path (["proj"], []) false ⟨0, []⟩).1
        = if false then none else some (0, .PythonPkg false)) :=
  ⟨create_from_path_python_package_characterization c8Path (["proj"], []) true ⟨0, []⟩
      (by decide) (by decide) (by decide) (by decide) (by decide),
   create_from_path_python_package_characterization c8Path (["proj"], []) false ⟨0, []⟩
      (by decide) (by decide) (by decide) (by decide) (by decide)⟩

/-- C9 counterexample: calling `create_from_path` twice with the same path
and the same parent yields two distinct identities — ids 0 and 1 — because
every branch allocates a fresh cell and never looks up an existing child. -/
theorem create_from_path_twice_distinct_identity :
    (create_from_path c8Path (["proj"], []) false ⟨0, []⟩).1
      = some (0, .PythonPkg false) ∧
    (create_from_path c8Path (["proj"], []) false
        (create_from_path c8Path (["proj"], []) false ⟨0, []⟩).2).1
      = some (1, .PythonPkg false) ∧
    (0 : Nat) ≠ 1 := by
  decide

/-- C9 (amended): whenever a `create_from_path` call returns an entity, the
identical second call returns a second, freshly allocated entity of the same
kind whose identity differs from the first — never the entity of the first
call. -/
theorem create_from_path_second_call_fresh (p : PathInfo)
    (tree : List String × List String) (rq : Bool) (st : CreateState)
    (i1 : Nat) (k1 : CreatedKind)
    (h1 : (create_from_path p tree rq st).1 = some (i1, k1)) :
    (create_from_path p tree rq (create_from_path p tree rq st).2).1
      = some (i1 + 1, k1) ∧ i1 + 1 ≠ i1 := by
  refine ⟨?_, Nat.succ_ne_self i1⟩
  unfold create_from_path alloc at h1 ⊢
  split_ifs at h1 ⊢ <;> simp_all

/-- C9 amended witness: the theorem applied to `c8Path`. -/
theorem create_from_path_second_call_fresh_witness :
    (create_from_path c8Path (["proj"], []) false
        (create_from_path c8Path (["proj"], []) false ⟨0, []⟩).2).1
      = some (0 + 1, .PythonPkg false) ∧ 0 + 1 ≠ 0 :=
  create_from_path_second_call_fresh c8Path (["proj"], []) false ⟨0, []⟩ 0
    (.PythonPkg false) (by decide)

end OdooLS
